import Mathlib

/-!
Shallow embedding of the reactive block model of
`src/blocksuite/framework/store/src/model/block/block-model.ts`.

A `BlockModel` instance is modelled by the parts of its runtime state the
claims are about:

* `yChildren`   — the backing CRDT record's `sys:children` id list
                  (`yBlock.get('sys:children').toArray()`);
* `sigChildren` — the value of the private `_children` signal;
* `attachCount` — how many times the attach callback registered in the
                  constructor (the `created.once(...)` body, which sets the
                  signal from the backing record and registers the two
                  `yBlock` observers) has run;
* `createdHandlerActive` / `deletedHandlerActive` — whether the one-shot
  handlers registered by the constructor on the `created` / `deleted` slots
  are still present (a `Slot.once` handler is removed after it fires, by
  `Disposable.dispose`, or by `Slot.dispose`);
* `propsListeners` — the listeners currently subscribed to the
  `propsUpdated` slot (abstractly, by numeric tag);
* `propsDisposed` — whether `propsUpdated.dispose()` has been called.

`Slot` lives in `@blocksuite/global/utils`, outside the given sources.
Modelled from the spec: lifecycle hooks are "one-shot notifications"
(`once` fires its handler at most once, then removes it) and `dispose()`
"releases all subscriptions" (clears every handler; a disposed slot accepts
no new subscriptions).

The shared document index (`Blocks`, providing `getBlock$`) is modelled as
a partial lookup `Doc.getBlock : String → Option BlockModel`, collapsing
the `Block` wrapper and its `.model` field into the returned model.
-/

structure BlockModel where
  yChildren : List String
  sigChildren : List String
  attachCount : Nat
  createdHandlerActive : Bool
  deletedHandlerActive : Bool
  propsListeners : List Nat
  propsDisposed : Bool
deriving DecidableEq, Repr

structure Doc where
  getBlock : String → Option BlockModel

namespace BlockModel

/-- State of a freshly constructed model: the `_children` signal starts at
`[]`, no observer is attached yet, both one-shot lifecycle handlers are
registered, and the `propsUpdated` slot is live with no listeners.  The
backing record already holds the id list `yc`. -/
def mkModel (yc : List String) : BlockModel :=
  { yChildren := yc
    sigChildren := []
    attachCount := 0
    createdHandlerActive := true
    deletedHandlerActive := true
    propsListeners := []
    propsDisposed := false }

/-- The `_childModels` computed value, read through the `children` getter:
each id stored in the `_children` signal is resolved through the document
index, and ids that do not resolve are skipped (`if (block) value.push`). -/
def children (d : Doc) (m : BlockModel) : List BlockModel :=
  m.sigChildren.filterMap d.getBlock

/-- A JavaScript `Map<string, number>` observed through `get`: `set`
overwrites the binding of the key and leaves the rest unchanged. -/
def mapSet (f : String → Option Nat) (k : String) (v : Nat) :
    String → Option Nat :=
  fun q => if q = k then some v else f q

/-- The body of the `reduce` in `childMap`: walk the id list with its
index, calling `map.set(id, index)` at each step. -/
def childMapAux (f : String → Option Nat) (n : Nat) :
    List String → (String → Option Nat)
  | [] => f
  | i :: rest => childMapAux (mapSet f i n) (n + 1) rest

/-- The `childMap` computed value: the ids of the `_children` signal
reduced into a map from id to positional index. -/
def childMap (m : BlockModel) : String → Option Nat :=
  childMapAux (fun _ => none) 0 m.sigChildren

/-- The `isEmpty()` method: `this.children.length === 0`. -/
def isEmpty (d : Doc) (m : BlockModel) : Bool :=
  (children d m).length == 0

/-- The `firstChild()` method: `this.children[0] || null` (a model object
is never falsy, so this is the first element when one exists). -/
def firstChild (d : Doc) (m : BlockModel) : Option BlockModel :=
  (children d m)[0]?

/-- The `lastChild()` method, with an explicit fuel bound standing for the
call stack: a childless node returns itself, otherwise recurse into the
last resolved child.  Fuel exhaustion (`none` at fuel `0`) marks a
non-terminating run, which in the source would be an infinite recursion. -/
def lastChild (d : Doc) : Nat → BlockModel → Option BlockModel
  | 0, _ => none
  | fuel + 1, m =>
    match (children d m).getLast? with
    | none => some m
    | some c => lastChild d fuel c

/-- Firing the `created` slot.  If the one-shot handler registered by the
constructor is still present, its body runs: the `_children` signal is set
from the backing record, the `yBlock` observers are registered, and the
handler removes itself (`once`).  Otherwise nothing happens. -/
def emitCreated (m : BlockModel) : BlockModel :=
  if m.createdHandlerActive then
    { m with
      sigChildren := m.yChildren
      attachCount := m.attachCount + 1
      createdHandlerActive := false }
  else m

/-- Firing the `deleted` slot.  Its one-shot handler disposes
`_onCreated`, i.e. removes the `created` handler if it is still pending;
the `yBlock` observers registered by an earlier attach are NOT removed
(the source never calls `unobserve`). -/
def emitDeleted (m : BlockModel) : BlockModel :=
  if m.deletedHandlerActive then
    { m with
      createdHandlerActive := false
      deletedHandlerActive := false }
  else m

/-- A mutation of the backing record's `sys:children` list, merged by the
CRDT engine, leaving the id list `l`.  If the observers are attached, they
fire synchronously and set the `_children` signal to
`event.target.toArray()`, i.e. to `l`; otherwise only the record changes.
This also covers the wholesale replacement of the `sys:children` key seen
by the `yBlock.observe` callback. -/
def mutateYChildren (m : BlockModel) (l : List String) : BlockModel :=
  { m with
    yChildren := l
    sigChildren := if m.attachCount = 0 then m.sigChildren else l }

/-- The `dispose()` method: `created.dispose(); deleted.dispose();
propsUpdated.dispose()`.  All slot subscriptions are released; the
`yBlock` observers are untouched. -/
def dispose (m : BlockModel) : BlockModel :=
  { m with
    createdHandlerActive := false
    deletedHandlerActive := false
    propsListeners := []
    propsDisposed := true }

/-- Registering a listener on the `propsUpdated` slot; a disposed slot
accepts no new subscriptions. -/
def addPropsListener (m : BlockModel) (n : Nat) : BlockModel :=
  if m.propsDisposed then m else { m with propsListeners := n :: m.propsListeners }

/-- Emitting on the `propsUpdated` slot: the listeners that receive the
notification are exactly the slot's current subscribers. -/
def emitPropsUpdated (m : BlockModel) : List Nat :=
  m.propsListeners

/-- A children-changed notification is observed by signal subscribers
exactly when a backing-record mutation changes the `_children` signal
value (preact signals notify on value change). -/
def childrenChangeObserved (m : BlockModel) (l : List String) : Prop :=
  (mutateYChildren m l).sigChildren ≠ m.sigChildren

/-- The events a model instance can undergo after construction. -/
inductive Event where
  | emitCreated : Event
  | emitDeleted : Event
  | mutateYChildren : List String → Event
  | dispose : Event
  | addPropsListener : Nat → Event
deriving DecidableEq, Repr

def applyEvent (m : BlockModel) : Event → BlockModel
  | .emitCreated => emitCreated m
  | .emitDeleted => emitDeleted m
  | .mutateYChildren l => mutateYChildren m l
  | .dispose => dispose m
  | .addPropsListener n => addPropsListener m n

def applyEvents (evts : List Event) (m : BlockModel) : BlockModel :=
  evts.foldl applyEvent m

/-- State of a model right after its `created` event has fired. -/
def attachedModel (yc : List String) : BlockModel :=
  emitCreated (mkModel yc)

/-- A document index resolving no id at all. -/
def emptyDoc : Doc :=
  { getBlock := fun _ => none }

/-- The node the scenario document resolves for id `"a"`. -/
def resolvedA : BlockModel :=
  attachedModel []

/-- Scenario document: only the id `"a"` resolves. -/
def docAB : Doc :=
  { getBlock := fun i => if i = "a" then some resolvedA else none }

def nodeC : BlockModel := attachedModel []

def nodeB : BlockModel := attachedModel ["c"]

def nodeA : BlockModel := attachedModel ["b"]

/-- Scenario document for the chain A→B→C. -/
def chainDoc : Doc :=
  { getBlock := fun i =>
      if i = "a" then some nodeA
      else if i = "b" then some nodeB
      else if i = "c" then some nodeC
      else none }


/-- The signal/record synchronisation invariant: once the observers are
attached, the `_children` signal mirrors the backing record's id list. -/
def synced (m : BlockModel) : Prop :=
  m.attachCount ≠ 0 → m.sigChildren = m.yChildren

lemma synced_mkModel (yc : List String) : synced (mkModel yc) := by
  intro h
  simp [mkModel] at h

lemma synced_emitCreated (m : BlockModel) (h : synced m) :
    synced (emitCreated m) := by
  unfold synced emitCreated
  split
  · intro _
    rfl
  · exact h

lemma synced_emitDeleted (m : BlockModel) (h : synced m) :
    synced (emitDeleted m) := by
  unfold synced emitDeleted
  split
  · exact h
  · exact h

lemma synced_mutateYChildren (m : BlockModel) (l : List String)
    (_h : synced m) : synced (mutateYChildren m l) := by
  intro hc
  have hc2 : m.attachCount ≠ 0 := hc
  show (if m.attachCount = 0 then m.sigChildren else l) = l
  rw [if_neg hc2]

lemma synced_dispose (m : BlockModel) (h : synced m) :
    synced (dispose m) := h

lemma synced_addPropsListener (m : BlockModel) (n : Nat) (h : synced m) :
    synced (addPropsListener m n) := by
  unfold synced addPropsListener
  split
  · exact h
  · exact h

lemma synced_applyEvent (m : BlockModel) (e : Event) (h : synced m) :
    synced (applyEvent m e) := by
  cases e with
  | emitCreated => exact synced_emitCreated m h
  | emitDeleted => exact synced_emitDeleted m h
  | mutateYChildren l => exact synced_mutateYChildren m l h
  | dispose => exact synced_dispose m h
  | addPropsListener n => exact synced_addPropsListener m n h

lemma synced_applyEvents (evts : List Event) (m : BlockModel)
    (h : synced m) : synced (applyEvents evts m) := by
  induction evts generalizing m with
  | nil => exact h
  | cons e rest ih => exact ih (applyEvent m e) (synced_applyEvent m e h)

/-- After `propsUpdated.dispose()`, the slot stays dead: disposed with no
listeners. -/
def propsDead (m : BlockModel) : Prop :=
  m.propsDisposed = true ∧ m.propsListeners = []

lemma propsDead_dispose (m : BlockModel) : propsDead (dispose m) :=
  ⟨rfl, rfl⟩

lemma propsDead_emitCreated (m : BlockModel) (h : propsDead m) :
    propsDead (emitCreated m) := by
  unfold propsDead emitCreated
  split
  · exact h
  · exact h

lemma propsDead_emitDeleted (m : BlockModel) (h : propsDead m) :
    propsDead (emitDeleted m) := by
  unfold propsDead emitDeleted
  split
  · exact h
  · exact h

lemma propsDead_addPropsListener (m : BlockModel) (n : Nat)
    (h : propsDead m) : propsDead (addPropsListener m n) := by
  unfold addPropsListener
  rw [if_pos h.1]
  exact h

lemma propsDead_applyEvent (m : BlockModel) (e : Event) (h : propsDead m) :
    propsDead (applyEvent m e) := by
  cases e with
  | emitCreated => exact propsDead_emitCreated m h
  | emitDeleted => exact propsDead_emitDeleted m h
  | mutateYChildren l => exact h
  | dispose => exact propsDead_dispose m
  | addPropsListener n => exact propsDead_addPropsListener m n h

lemma propsDead_applyEvents (evts : List Event) (m : BlockModel)
    (h : propsDead m) : propsDead (applyEvents evts m) := by
  induction evts generalizing m with
  | nil => exact h
  | cons e rest ih => exact ih (applyEvent m e) (propsDead_applyEvent m e h)

/-- The one-shot discipline of the attach callback: while its handler is
still registered it has never run, and it never runs more than once. -/
def attachedOnce (m : BlockModel) : Prop :=
  (m.createdHandlerActive = true → m.attachCount = 0) ∧ m.attachCount ≤ 1

lemma attachedOnce_mkModel (yc : List String) : attachedOnce (mkModel yc) :=
  ⟨fun _ => rfl, Nat.zero_le 1⟩

lemma attachedOnce_emitCreated (m : BlockModel) (h : attachedOnce m) :
    attachedOnce (emitCreated m) := by
  by_cases hc : m.createdHandlerActive = true
  · have h0 : m.attachCount = 0 := h.1 hc
    unfold emitCreated
    rw [if_pos hc]
    constructor
    · intro hh
      exact absurd hh Bool.false_ne_true
    · show m.attachCount + 1 ≤ 1
      omega
  · unfold emitCreated
    rw [if_neg hc]
    exact h

lemma attachedOnce_emitDeleted (m : BlockModel) (h : attachedOnce m) :
    attachedOnce (emitDeleted m) := by
  unfold attachedOnce emitDeleted
  split
  · exact ⟨fun hh => absurd hh Bool.false_ne_true, h.2⟩
  · exact h

lemma attachedOnce_addPropsListener (m : BlockModel) (n : Nat)
    (h : attachedOnce m) : attachedOnce (addPropsListener m n) := by
  unfold attachedOnce addPropsListener
  split
  · exact h
  · exact ⟨h.1, h.2⟩

lemma attachedOnce_applyEvent (m : BlockModel) (e : Event)
    (h : attachedOnce m) : attachedOnce (applyEvent m e) := by
  cases e with
  | emitCreated => exact attachedOnce_emitCreated m h
  | emitDeleted => exact attachedOnce_emitDeleted m h
  | mutateYChildren l => exact ⟨h.1, h.2⟩
  | dispose => exact ⟨fun hh => absurd hh Bool.false_ne_true, h.2⟩
  | addPropsListener n => exact attachedOnce_addPropsListener m n h

lemma attachedOnce_applyEvents (evts : List Event) (m : BlockModel)
    (h : attachedOnce m) : attachedOnce (applyEvents evts m) := by
  induction evts generalizing m with
  | nil => exact h
  | cons e rest ih =>
    exact ih (applyEvent m e) (attachedOnce_applyEvent m e h)

lemma childMapAux_not_mem (k : String) :
    ∀ (l : List String) (f : String → Option Nat) (n : Nat), k ∉ l →
      childMapAux f n l k = f k := by
  intro l
  induction l with
  | nil => intro f n _; rfl
  | cons a t ih =>
    intro f n hk
    have hkt : k ∉ t := fun hh => hk (List.mem_cons_of_mem a hh)
    have hka : ¬(k = a) := fun hh => hk (by rw [hh]; exact List.mem_cons_self a t)
    show childMapAux (mapSet f a n) (n + 1) t k = f k
    rw [ih (mapSet f a n) (n + 1) hkt]
    show (if k = a then some n else f k) = f k
    rw [if_neg hka]

lemma childMapAux_get :
    ∀ (l : List String), l.Nodup →
      ∀ (i : Nat) (h : i < l.length) (f : String → Option Nat) (n : Nat),
        childMapAux f n l (l.get ⟨i, h⟩) = some (n + i) := by
  intro l
  induction l with
  | nil =>
    intro _ i h
    exact absurd h (by simp)
  | cons a t ih =>
    intro hnd i h f n
    cases i with
    | zero =>
      have hat : a ∉ t := (List.nodup_cons.mp hnd).1
      show childMapAux (mapSet f a n) (n + 1) t a = some (n + 0)
      rw [childMapAux_not_mem a t (mapSet f a n) (n + 1) hat]
      show (if a = a then some n else f a) = some (n + 0)
      rw [if_pos rfl, Nat.add_zero]
    | succ j =>
      have hndt : t.Nodup := (List.nodup_cons.mp hnd).2
      have hj : j < t.length := Nat.lt_of_succ_lt_succ h
      show childMapAux (mapSet f a n) (n + 1) t (t.get ⟨j, hj⟩) = some (n + (j + 1))
      rw [ih hndt j hj (mapSet f a n) (n + 1)]
      congr 1
      omega

lemma lastChild_succ (d : Doc) (fuel : Nat) (m : BlockModel) :
    lastChild d (fuel + 1) m =
      match (children d m).getLast? with
      | none => some m
      | some c => lastChild d fuel c := rfl

lemma mem_of_getLast?_eq (l : List BlockModel) (c : BlockModel)
    (h : l.getLast? = some c) : c ∈ l := by
  obtain ⟨hne, hcc⟩ := List.mem_getLast?_eq_getLast (l := l) (x := c) h
  rw [hcc]
  exact List.getLast_mem hne

end BlockModel

namespace Claims

open BlockModel

/-- C1: for every model, once the `created` event has fired (so the attach
callback ran and the observers on the backing record are registered),
after any further sequence of events — backing-record mutations, lifecycle
firings, disposal, listener registrations — the resolved `children` list
is exactly the backing record's live `sys:children` id list with each id
resolved through the shared document index. -/
theorem c1_children_projection (yc : List String) (evts : List Event)
    (d : Doc) (h : (applyEvents evts (mkModel yc)).attachCount ≠ 0) :
    children d (applyEvents evts (mkModel yc)) =
      (applyEvents evts (mkModel yc)).yChildren.filterMap d.getBlock := by
  have hs := synced_applyEvents evts (mkModel yc) (synced_mkModel yc)
  unfold children
  rw [hs h]

theorem c1_children_projection_witness :
    (applyEvents [Event.emitCreated, Event.mutateYChildren ["a", "b"]]
        (mkModel [])).attachCount ≠ 0 ∧
    children docAB
        (applyEvents [Event.emitCreated, Event.mutateYChildren ["a", "b"]]
          (mkModel [])) =
      (applyEvents [Event.emitCreated, Event.mutateYChildren ["a", "b"]]
          (mkModel [])).yChildren.filterMap docAB.getBlock :=
  ⟨by decide,
   c1_children_projection []
     [Event.emitCreated, Event.mutateYChildren ["a", "b"]] docAB (by decide)⟩

/-- C2 counterexample: `dispose()` disposes only the `created`, `deleted`
and `propsUpdated` slots and never detaches the observers registered on
the backing record, so on a disposed node a subsequent backing-record
mutation still changes the `_children` signal value — a children-changed
notification that signal subscribers observe.  Concretely: attach a node
with no children, dispose it, then mutate `sys:children` to `["a"]`. -/
theorem c2_children_notification_after_dispose :
    childrenChangeObserved (dispose (attachedModel [])) ["a"] := by
  unfold childrenChangeObserved
  decide

/-- C2 (amended): after `dispose()`, no further `propsUpdated`
notification is observed by any listener, whatever events follow —
`propsUpdated.dispose()` clears the slot's subscribers for good.  (The
children-changed half of the original claim fails: the backing-record
observers survive disposal.) -/
theorem c2_no_props_updated_after_dispose (m : BlockModel)
    (evts : List Event) :
    emitPropsUpdated (applyEvents evts (dispose m)) = [] :=
  (propsDead_applyEvents evts (dispose m) (propsDead_dispose m)).2

/-- C3: the `created` hook is one-shot — firing it twice is the same as
firing it once, a double fire still leaves the attach count at `1`, and
along any event sequence from construction the attach callback (which
registers the backing-record observers) runs at most once. -/
theorem c3_attach_idempotent :
    (∀ m : BlockModel, emitCreated (emitCreated m) = emitCreated m) ∧
    (∀ yc : List String,
      (emitCreated (emitCreated (mkModel yc))).attachCount = 1) ∧
    (∀ (yc : List String) (evts : List Event),
      (applyEvents evts (mkModel yc)).attachCount ≤ 1) := by
  refine ⟨?_, ?_, ?_⟩
  · intro m
    by_cases hc : m.createdHandlerActive = true <;> simp [emitCreated, hc]
  · intro yc
    rfl
  · intro yc evts
    exact (attachedOnce_applyEvents evts (mkModel yc)
      (attachedOnce_mkModel yc)).2

/-- C4: child ids that do not resolve through the document index are
silently skipped from `children`; in particular a node whose signal holds
`["a", "b"]` against a document resolving only `"a"` yields a one-element
`children` list containing the node resolved for `"a"`. -/
theorem c4_unresolved_ids_skipped :
    (∀ (d : Doc) (xs ys : List String) (i : String), d.getBlock i = none →
      children d (attachedModel (xs ++ i :: ys)) =
        children d (attachedModel (xs ++ ys))) ∧
    children docAB (attachedModel ["a", "b"]) = [resolvedA] ∧
    (children docAB (attachedModel ["a", "b"])).length = 1 := by
  refine ⟨?_, by decide, by decide⟩
  intro d xs ys i hi
  show (xs ++ i :: ys).filterMap d.getBlock = (xs ++ ys).filterMap d.getBlock
  rw [List.filterMap_append, List.filterMap_append]
  congr 1
  simp [List.filterMap_cons, hi]

theorem c4_unresolved_ids_skipped_witness :
    docAB.getBlock "z" = none ∧
    children docAB (attachedModel (["a"] ++ "z" :: [])) =
      children docAB (attachedModel (["a"] ++ [])) :=
  ⟨by decide, c4_unresolved_ids_skipped.1 docAB ["a"] [] "z" (by decide)⟩

/-- C5: `lastChild()` returns the deepest last descendant — on a node with
no resolved children it returns the node itself, and on the chain
A→B→C with C childless, `A.lastChild()` returns C. -/
theorem c5_lastChild_deepest :
    (∀ (d : Doc) (fuel : Nat) (m : BlockModel), children d m = [] →
      lastChild d (fuel + 1) m = some m) ∧
    lastChild chainDoc 3 nodeA = some nodeC := by
  constructor
  · intro d fuel m h
    rw [lastChild_succ, h]
    rfl
  · decide

theorem c5_lastChild_deepest_witness :
    children emptyDoc (mkModel []) = [] ∧
    lastChild emptyDoc 1 (mkModel []) = some (mkModel []) :=
  ⟨by decide, c5_lastChild_deepest.1 emptyDoc 0 (mkModel []) (by decide)⟩

/-- C6: `isEmpty()` is true exactly when the resolved `children` list is
empty; in particular a zero-length `children` list makes it true. -/
theorem c6_isEmpty_iff (d : Doc) (m : BlockModel) :
    (isEmpty d m = true ↔ children d m = []) ∧
    ((children d m).length = 0 → isEmpty d m = true) := by
  constructor
  · simp [isEmpty, List.length_eq_zero]
  · intro h
    unfold isEmpty
    rw [h]
    rfl

theorem c6_isEmpty_iff_witness :
    (children emptyDoc (mkModel [])).length = 0 ∧
    isEmpty emptyDoc (mkModel []) = true :=
  ⟨by decide, (c6_isEmpty_iff emptyDoc (mkModel [])).2 (by decide)⟩

/-- C7: `firstChild()` returns null on a node with no resolved children,
and the first resolved child otherwise. -/
theorem c7_firstChild (d : Doc) (m : BlockModel) :
    (children d m = [] → firstChild d m = none) ∧
    (∀ (c : BlockModel) (cs : List BlockModel), children d m = c :: cs →
      firstChild d m = some c) := by
  constructor
  · intro h
    unfold firstChild
    rw [h]
    rfl
  · intro c cs h
    unfold firstChild
    rw [h]
    simp

theorem c7_firstChild_witness :
    firstChild emptyDoc (mkModel []) = none ∧
    firstChild docAB (attachedModel ["a"]) = some resolvedA :=
  ⟨(c7_firstChild emptyDoc (mkModel [])).1 (by decide),
   (c7_firstChild docAB (attachedModel ["a"])).2 resolvedA [] (by decide)⟩

/-- C8: on a node whose stored child-id list has pairwise-distinct ids,
`childMap` sends the id at position `i` to `i` and holds no other key. -/
theorem c8_childMap_positional (m : BlockModel)
    (hnd : m.sigChildren.Nodup) :
    (∀ (i : Nat) (h : i < m.sigChildren.length),
      childMap m (m.sigChildren.get ⟨i, h⟩) = some i) ∧
    (∀ k : String, k ∉ m.sigChildren → childMap m k = none) := by
  constructor
  · intro i h
    unfold childMap
    rw [childMapAux_get m.sigChildren hnd i h (fun _ => none) 0,
      Nat.zero_add]
  · intro k hk
    unfold childMap
    rw [childMapAux_not_mem k m.sigChildren (fun _ => none) 0 hk]

theorem c8_childMap_positional_witness :
    childMap (attachedModel ["a", "b"]) "a" = some 0 ∧
    childMap (attachedModel ["a", "b"]) "z" = none :=
  ⟨(c8_childMap_positional (attachedModel ["a", "b"]) (by decide)).1 0
     (by decide),
   (c8_childMap_positional (attachedModel ["a", "b"]) (by decide)).2 "z"
     (by decide)⟩

/-- C9: `dispose()` is idempotent — a second call changes nothing (and,
being a total state update, raises no error). -/
theorem c9_dispose_idempotent (m : BlockModel) :
    dispose (dispose m) = dispose m := rfl

/-- C10: on a finite acyclic children tree — witnessed by a rank function
that strictly decreases from a node to each of its resolved children —
`lastChild()` never returns null: with enough call-stack fuel it always
produces a node. -/
theorem c10_lastChild_never_null (d : Doc) (rank : BlockModel → Nat)
    (hr : ∀ m c, c ∈ children d m → rank c < rank m) :
    ∀ (fuel : Nat) (m : BlockModel), rank m < fuel →
      (lastChild d fuel m).isSome = true := by
  intro fuel
  induction fuel with
  | zero =>
    intro m h
    exact absurd h (Nat.not_lt_zero _)
  | succ n ih =>
    intro m h
    rw [lastChild_succ]
    cases hc : (children d m).getLast? with
    | none => rfl
    | some c =>
      show (lastChild d n c).isSome = true
      have hmem : c ∈ children d m := mem_of_getLast?_eq _ _ hc
      have hlt : rank c < rank m := hr m c hmem
      exact ih c (by omega)

theorem c10_lastChild_never_null_witness :
    (lastChild emptyDoc 1 (mkModel [])).isSome = true :=
  c10_lastChild_never_null emptyDoc (fun _ => 0)
    (by
      intro m c hc
      simp [children, emptyDoc, List.mem_filterMap] at hc)
    1 (mkModel []) (by decide)

end Claims
